import Mathlib

set_option maxRecDepth 8000
set_option maxHeartbeats 1000000

/-!
Verification development for the raga-detector repository.

The two source files are embedded shallowly:

* `generate_melakartas.py` — `MELAKARTA_NAMES` and `get_melakarta_structure`
  work on Python `int`s; they are embedded over `ℤ`, with Python's `//`
  rendered as `Int.fdiv` (floor division) and `%` rendered as `Int.emod`
  (both agree with Python for the positive divisor 6 used by the source).

* `raga_detector.py` — the numeric pipeline works on NumPy floats; it is
  embedded over exact arithmetic (`ℚ` where the source only ever divides,
  floors and compares, `ℝ` where the source takes `log2` or square roots).
-/

namespace RagaDetector

/-- The list `MELAKARTA_NAMES` from `generate_melakartas.py`: all 72
Melakarta raga names in order. -/
def MELAKARTA_NAMES : List String := [
  "Kanakangi", "Ratnangi", "Ganamurti", "Vanaspati", "Manavati", "Tanarupi",
  "Senavati", "Hanumattodi", "Dhenuka", "Natakapriya", "Kokilapriya", "Rupavati",
  "Gayakapriya", "Vakulabharanam", "Mayamalavagowla", "Chakravakam", "Suryakantam", "Hatakambari",
  "Jhankaradhwani", "Natabhairavi", "Kiravani", "Kharaharapriya", "Gourimanohari", "Varunapriya",
  "Mararanjani", "Charukesi", "Sarasangi", "Harikambhoji", "Dheerasankarabharanam", "Naganandini",
  "Yagapriya", "Ragavardhani", "Gangeyabhushani", "Vagadheeswari", "Shulini", "Chalanata",
  "Salagam", "Jalarnavam", "Jhalavarali", "Navaneetam", "Pavani", "Raghupriya",
  "Gavambodhi", "Bhavapriya", "Shubhapantuvarali", "Shadvidamargini", "Suvarnangi", "Divyamani",
  "Dhavalambari", "Namanarayani", "Kamavardhani", "Ramapriya", "Gamanashrama", "Viswambari",
  "Shyamalangi", "Shanmukhapriya", "Simhendramadhyamam", "Hemavati", "Dharmavati", "Neetimati",
  "Kantamani", "Rishabhapriya", "Latangi", "Vachaspati", "Mechakalyani", "Chitrambari",
  "Sucharitra", "Jyotiswarupini", "Dhatuvardhani", "Nasikabhushani", "Kosalam", "Rasikapriya"]

/-- Shallow embedding of `get_melakarta_structure` from `generate_melakartas.py`.

The Python source performs no range check and contains no `raise`, so the
function is total on `ℤ` exactly as the Python function is total on `int`
(the two list indexings `['G1','G2','G3'][...]` are always in range because
`position ∈ [1,6]`; `List.getD` with an unreachable default renders them).
Python's `//` is `Int.fdiv` and `%` (by the positive constant 6) is
`Int.emod`.  The branch structure mirrors the source's `if`/`elif` chains,
including the unexpected `position > 3` arm for chakras 1 and 2 and the
`min(position - 1, 2)` index for `G_int`. -/
def get_melakarta_structure (raga_number : ℤ) : List String × List ℤ :=
  -- Determine if Suddha Madhyama (1-36) or Prati Madhyama (37-72)
  let MMA : String × ℤ × ℤ :=
    if raga_number ≤ 36 then ("M1", 5, raga_number) else ("M2", 6, raga_number - 36)
  let M := MMA.1
  let M_int := MMA.2.1
  let adjusted_num := MMA.2.2
  -- Determine Chakra and position within chakra
  let chakra : ℤ := (adjusted_num - 1).fdiv 6 + 1
  let position : ℤ := (adjusted_num - 1).emod 6 + 1
  -- Determine R and G based on chakra
  let RG : String × ℤ × String × ℤ :=
    if chakra = 1 then
      ("R1", 1,
       if position ≤ 3 then ["G1", "G2", "G3"].getD (position - 1).toNat ""
       else ["G1", "G2", "G3"].getD (position - 4).toNat "",
       [3, 4, 4].getD (min (position - 1) 2).toNat 0)
    else if chakra = 2 then
      ("R1", 1,
       if position ≤ 3 then ["G1", "G2", "G3"].getD (position - 1).toNat ""
       else ["G1", "G2", "G3"].getD (position - 4).toNat "",
       [3, 4, 4].getD (min (position - 1) 2).toNat 0)
    else if chakra = 3 then
      ("R2", 2, if position ≤ 3 then "G2" else "G3", if position ≤ 3 then 4 else 4)
    else if chakra = 4 then
      ("R2", 2, "G3", 4)
    else if chakra = 5 then
      ("R3", 3, "G3", 4)
    else  -- chakra == 6 (and, absent any range check, every other chakra value)
      ("R3", 3, "G3", 4)
  let R := RG.1
  let R_int := RG.2.1
  let G := RG.2.2.1
  let G_int := RG.2.2.2
  -- Determine D and N based on position within chakra
  let DN : String × String × ℤ × ℤ :=
    if position = 1 then ("D1", "N1", 8, 10)
    else if position = 2 then ("D1", "N2", 8, 11)
    else if position = 3 then ("D1", "N3", 8, 11)
    else if position = 4 then ("D2", "N2", 9, 11)
    else if position = 5 then ("D2", "N3", 9, 11)
    else ("D3", "N3", 10, 11)
  let D := DN.1
  let N := DN.2.1
  let D_int := DN.2.2.1
  let N_int := DN.2.2.2
  (["S", R, G, M, "P", D, N], [0, R_int, G_int, M_int, 7, D_int, N_int])

/-- Claim C1: the oracle indices {15, 20, 28, 29, 65} must reproduce the
published (name, swaras, intervals) triples recorded in `test_known_ragas`.
The names (taken from `MELAKARTA_NAMES`, 0-based position `num - 1`) do
match, but `get_melakarta_structure` disagrees with the repository's own
expected swaras and intervals at every one of the five oracle indices; in
particular index 29 returns `R3`/interval 3 where the oracle (and the test
table in the source) has `R2`/interval 2.  This records the code-bug
evidence by evaluating the embedded code at the failing inputs. -/
theorem C1_oracle_vs_code :
    MELAKARTA_NAMES[28]? = some "Dheerasankarabharanam" ∧
    get_melakarta_structure 29 = (["S", "R3", "G3", "M1", "P", "D2", "N3"], [0, 3, 4, 5, 7, 9, 11]) ∧
    get_melakarta_structure 29 ≠ (["S", "R2", "G3", "M1", "P", "D2", "N3"], [0, 2, 4, 5, 7, 9, 11]) ∧
    MELAKARTA_NAMES[14]? = some "Mayamalavagowla" ∧
    get_melakarta_structure 15 ≠ (["S", "R1", "G3", "M1", "P", "D1", "N3"], [0, 1, 4, 5, 7, 8, 11]) ∧
    MELAKARTA_NAMES[19]? = some "Natabhairavi" ∧
    get_melakarta_structure 20 ≠ (["S", "R2", "G2", "M1", "P", "D2", "N2"], [0, 2, 3, 5, 7, 9, 10]) ∧
    MELAKARTA_NAMES[27]? = some "Harikambhoji" ∧
    get_melakarta_structure 28 ≠ (["S", "R2", "G3", "M1", "P", "D2", "N2"], [0, 2, 4, 5, 7, 9, 10]) ∧
    MELAKARTA_NAMES[64]? = some "Mechakalyani" ∧
    get_melakarta_structure 65 ≠ (["S", "R2", "G3", "M2", "P", "D2", "N3"], [0, 2, 4, 6, 7, 9, 11]) := by
  decide

/-- Claim C2: for every index in [1,72] the interval sequence returned by
`get_melakarta_structure` has length exactly 7, is strictly increasing,
starts at 0, and every value lies in [0,11]. -/
theorem C2_intervals_wellformed (i : ℤ) (h1 : 1 ≤ i) (h2 : i ≤ 72) :
    (get_melakarta_structure i).2.length = 7 ∧
    (get_melakarta_structure i).2.Pairwise (· < ·) ∧
    (get_melakarta_structure i).2.head? = some 0 ∧
    ∀ x ∈ (get_melakarta_structure i).2, 0 ≤ x ∧ x ≤ 11 := by
  have H : ∀ n ∈ Finset.range 72,
      (get_melakarta_structure ((n : ℤ) + 1)).2.length = 7 ∧
      (get_melakarta_structure ((n : ℤ) + 1)).2.Pairwise (· < ·) ∧
      (get_melakarta_structure ((n : ℤ) + 1)).2.head? = some 0 ∧
      ∀ x ∈ (get_melakarta_structure ((n : ℤ) + 1)).2, 0 ≤ x ∧ x ≤ 11 := by decide
  have hi : i = ((i - 1).toNat : ℤ) + 1 := by omega
  rw [hi]
  exact H (i - 1).toNat (Finset.mem_range.mpr (by omega))

/-- Witness for C2 at the concrete index 29. -/
theorem C2_intervals_wellformed_witness :
    (1 : ℤ) ≤ 29 ∧ (29 : ℤ) ≤ 72 ∧
    ((get_melakarta_structure 29).2.length = 7 ∧
     (get_melakarta_structure 29).2.Pairwise (· < ·) ∧
     (get_melakarta_structure 29).2.head? = some 0 ∧
     ∀ x ∈ (get_melakarta_structure 29).2, 0 ≤ x ∧ x ≤ 11) :=
  ⟨by decide, by decide, C2_intervals_wellformed 29 (by decide) (by decide)⟩

/-- Claim C3, counterexample: the claim says every index outside [1,72]
raises a domain error and returns no scale structure, but the source has no
range check at all: at the concrete out-of-range inputs 0 and 73 the
function returns ordinary 7-note structures. -/
theorem C3_counterexample :
    get_melakarta_structure 0 = (["S", "R3", "G3", "M1", "P", "D3", "N3"], [0, 3, 4, 5, 7, 10, 11]) ∧
    get_melakarta_structure 73 = (["S", "R3", "G3", "M2", "P", "D1", "N1"], [0, 3, 4, 6, 7, 8, 10]) := by
  decide

/-- Claim C3 as amended: for every integer index outside [1,72] the
function does not fail; it still returns a full structure with 7 swaras and
7 intervals, computed by the same (unvalidated) branch logic. -/
theorem C3_amended_total_outside_range (i : ℤ) (h : i < 1 ∨ 72 < i) :
    (get_melakarta_structure i).1.length = 7 ∧ (get_melakarta_structure i).2.length = 7 :=
  ⟨rfl, rfl⟩

/-- Witness for the amended C3 at the concrete out-of-range index 73. -/
theorem C3_amended_witness :
    ((73 : ℤ) < 1 ∨ (72 : ℤ) < 73) ∧
    ((get_melakarta_structure 73).1.length = 7 ∧ (get_melakarta_structure 73).2.length = 7) :=
  ⟨by decide, C3_amended_total_outside_range 73 (by decide)⟩

/-- Claim C9: the claim says each swara-variant label is bound to one fixed
semitone offset across all outputs, and the module docstring of
`generate_melakartas.py` itself records `G1 (3)`.  The code violates this:
at index 1 it pairs `G1` with interval 3, at index 4 it pairs `G1` with
interval 4 (both indices are in [1,72]).  This records the code-bug
evidence by evaluating the embedded code at the failing inputs. -/
theorem C9_label_offset_clash :
    (get_melakarta_structure 1).1[2]? = some "G1" ∧
    (get_melakarta_structure 1).2[2]? = some 3 ∧
    (get_melakarta_structure 4).1[2]? = some "G1" ∧
    (get_melakarta_structure 4).2[2]? = some 4 := by
  decide

/-! ### `RagaDetector.find_tonic` from `raga_detector.py`

`find_tonic` runs `np.histogram(f0_clean, bins=100)` and returns
`bins[np.argmax(hist)]`.  Floats are modelled by exact rationals; the
`print` statements (including the `librosa.hz_to_note` call, an excluded
external collaborator) are dropped by the embedding. -/

/-- The histogram range `np.histogram(f0_clean, bins=100)` uses: the data
range `[min, max]`, widened to `(min - 0.5, max + 0.5)` when the range is
degenerate (`min == max`), and defaulting to `(0, 1)` on empty input. -/
def numpyRange (f0_clean : List ℚ) : ℚ × ℚ :=
  let mn := f0_clean.min?.getD 0
  let mx := f0_clean.max?.getD 1
  if mn = mx then (mn - 1 / 2, mn + 1 / 2) else (mn, mx)

/-- The 0-based uniform-histogram bin `np.histogram` assigns to a sample
`x ∈ [lo, hi]` with 100 bins: `⌊(x - lo)·100/(hi - lo)⌋`, except that the
last bin is closed on the right (hence the `min ⬝ 99`). -/
def binIdx (lo hi x : ℚ) : ℕ := min (⌊(x - lo) * 100 / (hi - lo)⌋.toNat) 99

/-- The list `hist` of 100 bin counts of `np.histogram(f0_clean, bins=100)`. -/
def histCounts (f0_clean : List ℚ) : List ℕ :=
  (List.range 100).map fun j =>
    f0_clean.countP fun x => binIdx (numpyRange f0_clean).1 (numpyRange f0_clean).2 x == j

/-- Embedding of `np.argmax`: the index of the first occurrence of the maximal value. -/
def argmaxFirst (l : List ℕ) : ℕ := l.indexOf (l.foldr max 0)

/-- Shallow embedding of `RagaDetector.find_tonic`: histogram the samples
into 100 bins over `numpyRange` and return `bins[np.argmax(hist)]`, the
left edge of the first modal bin, where `np.linspace` puts the `j`-th bin
edge at `lo + j·(hi - lo)/100`.  The source contains no empty-input check
and no `raise`; the emptiness guard lives in the caller `analyze`. -/
def find_tonic (f0_clean : List ℚ) : ℚ :=
  (numpyRange f0_clean).1 +
    (argmaxFirst (histCounts f0_clean) : ℚ) *
      (((numpyRange f0_clean).2 - (numpyRange f0_clean).1) / 100)

/-- Claim C4, counterexample: the claim says `find_tonic` on an empty
sample sequence raises an EmptyInput error and never returns a frequency
value.  The source has no such check and raises nothing itself: on the
empty list NumPy's default histogram range `(0, 1)` applies, every bin
count is 0, `argmax` is 0, and `find_tonic` returns the frequency value 0
(the left edge of the first bin). -/
theorem C4_counterexample : find_tonic [] = 0 := by
  have h1 : numpyRange [] = (0, 1) := by
    unfold numpyRange
    norm_num
  have h2 : argmaxFirst (histCounts []) = 0 := by decide
  unfold find_tonic
  rw [h1, h2]
  norm_num

/-- Claim C4 as amended: `find_tonic` has no empty-input path of its own;
on the empty list it falls through NumPy's defaults — range `(0, 1)`, all
100 bin counts zero, first modal bin 0 — and returns the value 0 rather
than raising. -/
theorem C4_amended_empty_input :
    numpyRange [] = (0, 1) ∧ (histCounts []).all (· == 0) ∧
    argmaxFirst (histCounts []) = 0 ∧ find_tonic [] = 0 := by
  refine ⟨?_, by decide, by decide, C4_counterexample⟩
  unfold numpyRange
  norm_num

/-- The maximum that `List.foldr max 0` computes over a nonempty list of
naturals is one of its elements. -/
theorem foldr_max_mem (l : List ℕ) (h : l ≠ []) : l.foldr max 0 ∈ l := by
  induction l with
  | nil => exact absurd rfl h
  | cons a t ih =>
    rcases eq_or_ne t [] with rfl | ht
    · simp
    · rcases max_choice a (t.foldr max 0) with h1 | h1
      · rw [List.foldr_cons, h1]
        exact List.mem_cons_self a t
      · rw [List.foldr_cons, h1]
        exact List.mem_cons_of_mem a (ih ht)

/-- Every element of a list of naturals is bounded by `List.foldr max 0`. -/
theorem le_foldr_max (l : List ℕ) (x : ℕ) (hx : x ∈ l) : x ≤ l.foldr max 0 := by
  induction l with
  | nil => exact absurd hx (List.not_mem_nil x)
  | cons a t ih =>
    rcases List.mem_cons.mp hx with rfl | hx'
    · exact Nat.le_max_left _ _
    · exact le_trans (ih hx') (Nat.le_max_right _ _)

/-- Entries strictly before `List.indexOf a` differ from `a`
(`List.indexOf` returns the first occurrence). -/
theorem ne_of_lt_indexOf {l : List ℕ} {a k c : ℕ} (hk : k < l.indexOf a)
    (hc : l[k]? = some c) : c ≠ a := by
  have h1 : k < List.findIdx (· == a) l := hk
  have hlen : k < l.length := Nat.lt_of_lt_of_le h1 (List.findIdx_le_length _)
  have h2 := List.not_of_lt_findIdx h1
  have h3 : l[k]? = some l[k] := List.getElem?_eq_getElem hlen
  rw [h3] at hc
  have hc2 : l[k] = c := Option.some_injective _ hc
  rw [hc2] at h2
  simpa using h2

/-- A nonempty list of rationals has a least element reported by `min?`. -/
theorem min?_spec {s : List ℚ} (hs : s ≠ []) :
    ∃ mn, s.min? = some mn ∧ mn ∈ s ∧ ∀ x ∈ s, mn ≤ x := by
  obtain ⟨mn, hmn⟩ : ∃ mn, s.min? = some mn := by
    cases h : s.min? with
    | none => exact absurd (List.min?_eq_none_iff.mp h) hs
    | some m => exact ⟨m, rfl⟩
  haveI : Std.Antisymm ((· : ℚ) ≤ ·) := ⟨fun h h' => le_antisymm h h'⟩
  have h := (List.min?_eq_some_iff (fun a : ℚ => le_refl a) (fun a b => min_choice a b)
      (fun a b c => le_min_iff)).mp hmn
  exact ⟨mn, hmn, h.1, h.2⟩

/-- A nonempty list of rationals has a greatest element reported by `max?`. -/
theorem max?_spec {s : List ℚ} (hs : s ≠ []) :
    ∃ mx, s.max? = some mx ∧ mx ∈ s ∧ ∀ x ∈ s, x ≤ mx := by
  obtain ⟨mx, hmx⟩ : ∃ mx, s.max? = some mx := by
    cases h : s.max? with
    | none => exact absurd (List.max?_eq_none_iff.mp h) hs
    | some m => exact ⟨m, rfl⟩
  haveI : Std.Antisymm ((· : ℚ) ≤ ·) := ⟨fun h h' => le_antisymm h h'⟩
  have h := (List.max?_eq_some_iff (fun a : ℚ => le_refl a) (fun a b => max_choice a b)
      (fun a b c => max_le_iff)).mp hmx
  exact ⟨mx, hmx, h.1, h.2⟩

/-- In the degenerate histogram range around a single repeated value `m`,
every sample equal to `m` lands in bin 50 (the bin whose left edge is `m`). -/
theorem binIdx_degenerate (m : ℚ) : binIdx (m - 1 / 2) (m + 1 / 2) m = 50 := by
  unfold binIdx
  have h1 : (m - (m - 1 / 2)) * 100 / (m + 1 / 2 - (m - 1 / 2)) = (50 : ℚ) := by
    have h2 : m + 1 / 2 - (m - 1 / 2) = (1 : ℚ) := by ring
    rw [h2]
    norm_num
  rw [h1]
  have h3 : ((50 : ℚ)) = ((50 : ℤ) : ℚ) := by norm_num
  rw [h3, Int.floor_intCast]
  decide

/-- Claim C10: for every non-empty input, `find_tonic` is deterministic
under ties — the value returned is the left edge `lo + j·(hi − lo)/100` of
a bin `j` whose count is maximal and strictly exceeds the count of every
lower-frequency bin (NumPy's `argmax` takes the first maximum) — and the
returned value always lies within `[min samples, max samples]`. -/
theorem C10_find_tonic_first_modal_and_bounded (s : List ℚ) (hs : s ≠ []) :
    (∃ (j : ℕ) (c : ℕ), j < 100 ∧ (histCounts s)[j]? = some c ∧
      (∀ (k ck : ℕ), (histCounts s)[k]? = some ck → ck ≤ c) ∧
      (∀ (k : ℕ), k < j → ∀ (ck : ℕ), (histCounts s)[k]? = some ck → ck < c) ∧
      find_tonic s =
        (numpyRange s).1 + (j : ℚ) * (((numpyRange s).2 - (numpyRange s).1) / 100)) ∧
    ∃ mn mx, s.min? = some mn ∧ s.max? = some mx ∧
      mn ≤ find_tonic s ∧ find_tonic s ≤ mx := by
  obtain ⟨mn, hmn, hmnmem, hmnle⟩ := min?_spec hs
  obtain ⟨mx, hmx, hmxmem, hlemx⟩ := max?_spec hs
  have hclen : (histCounts s).length = 100 := by simp [histCounts]
  have hcne : histCounts s ≠ [] := by
    intro h
    rw [h] at hclen
    simp at hclen
  have hMmem : (histCounts s).foldr max 0 ∈ histCounts s := foldr_max_mem _ hcne
  have hjlt : (histCounts s).indexOf ((histCounts s).foldr max 0) < 100 :=
    hclen ▸ List.indexOf_lt_length.mpr hMmem
  constructor
  · refine ⟨(histCounts s).indexOf ((histCounts s).foldr max 0), (histCounts s).foldr max 0,
      hjlt, List.getElem?_indexOf hMmem, ?_, ?_, rfl⟩
    · intro k ck hk
      exact le_foldr_max _ _ (List.getElem?_mem hk)
    · intro k hk ck hck
      exact lt_of_le_of_ne (le_foldr_max _ _ (List.getElem?_mem hck)) (ne_of_lt_indexOf hk hck)
  refine ⟨mn, mx, hmn, hmx, ?_⟩
  have hrange : numpyRange s = if mn = mx then (mn - 1 / 2, mn + 1 / 2) else (mn, mx) := by
    unfold numpyRange
    simp only [hmn, hmx, Option.getD_some]
  by_cases hdeg : mn = mx
  · -- degenerate data range: every sample equals mn, everything lands in bin 50
    have hall : ∀ x ∈ s, x = mn := fun x hx =>
      le_antisymm (hdeg ▸ hlemx x hx) (hmnle x hx)
    have hlo : (numpyRange s).1 = mn - 1 / 2 := by rw [hrange, if_pos hdeg]
    have hhi : (numpyRange s).2 = mn + 1 / 2 := by rw [hrange, if_pos hdeg]
    have hbin : ∀ x ∈ s, binIdx (numpyRange s).1 (numpyRange s).2 x = 50 := by
      intro x hx
      rw [hall x hx, hlo, hhi]
      exact binIdx_degenerate mn
    have hcnt : ∀ j, j < 100 → (histCounts s)[j]? = some (if j = 50 then s.length else 0) := by
      intro j hj
      unfold histCounts
      rw [List.getElem?_map, List.getElem?_range hj, Option.map_some']
      congr 1
      by_cases hj50 : j = 50
      · subst hj50
        rw [if_pos rfl]
        exact List.countP_eq_length.mpr fun x hx => by simp [hbin x hx]
      · rw [if_neg hj50]
        exact List.countP_eq_zero.mpr fun x hx => by
          simp only [hbin x hx, beq_iff_eq]
          exact fun h => hj50 h.symm
    have hn1 : 0 < s.length := List.length_pos.mpr hs
    have hnmem : s.length ∈ histCounts s := by
      have h50 := hcnt 50 (by norm_num)
      rw [if_pos rfl] at h50
      exact List.getElem?_mem h50
    have hMle : (histCounts s).foldr max 0 ≤ s.length := by
      obtain ⟨k, hk⟩ := List.getElem?_of_mem hMmem
      have hk100 : k < 100 := by
        have := (List.getElem?_eq_some.mp hk).1
        rwa [hclen] at this
      rw [hcnt k hk100] at hk
      have h3 := Option.some_injective _ hk
      by_cases hk50 : k = 50
      · rw [if_pos hk50] at h3
        exact le_of_eq h3.symm
      · rw [if_neg hk50] at h3
        rw [← h3]
        exact Nat.zero_le _
    have hM : (histCounts s).foldr max 0 = s.length :=
      le_antisymm hMle (le_foldr_max _ _ hnmem)
    have hj50 : (histCounts s).indexOf ((histCounts s).foldr max 0) = 50 := by
      have h1 : (histCounts s)[(histCounts s).indexOf ((histCounts s).foldr max 0)]? =
          some ((histCounts s).foldr max 0) := List.getElem?_indexOf hMmem
      have h2 := hcnt _ hjlt
      rw [h1] at h2
      have h3 := Option.some_injective _ h2
      by_contra hne
      rw [if_neg hne] at h3
      omega
    have hft : find_tonic s = mn := by
      unfold find_tonic argmaxFirst
      rw [hj50, hlo, hhi]
      push_cast
      ring
    rw [hft]
    exact ⟨le_refl mn, le_of_eq hdeg⟩
  · -- non-degenerate data range: the left edge of any of the 100 bins is in [mn, mx]
    have hlo : (numpyRange s).1 = mn := by
      rw [hrange, if_neg hdeg]
    have hhi : (numpyRange s).2 = mx := by
      rw [hrange, if_neg hdeg]
    have hlt : mn < mx := lt_of_le_of_ne (hmnle mx hmxmem) hdeg
    have hj99 : ((argmaxFirst (histCounts s) : ℕ) : ℚ) ≤ 99 := by
      have h : argmaxFirst (histCounts s) ≤ 99 := Nat.le_of_lt_succ hjlt
      exact_mod_cast h
    have hj0 : (0 : ℚ) ≤ ((argmaxFirst (histCounts s) : ℕ) : ℚ) := Nat.cast_nonneg _
    unfold find_tonic
    rw [hlo, hhi]
    have hw : (0 : ℚ) ≤ (mx - mn) / 100 := by
      have : (0 : ℚ) ≤ mx - mn := by linarith
      linarith
    constructor
    · nlinarith [mul_nonneg hj0 hw]
    · nlinarith [mul_le_mul_of_nonneg_right hj99 hw]

/-! ### `RagaDetector.extract_swara_distribution` from `raga_detector.py`

The source computes `cents = 1200 * np.log2(f0_clean / tonic_hz)`, wraps
into one octave with `% 1200`, quantizes with
`np.round(cents_wrapped / 100).astype(int) % 12`, bincounts with
`minlength=12` and normalizes by the total.  IEEE floats are modelled by
real numbers: `np.log2` is `Real.logb 2`, float `%` by the positive
modulus 1200 is `x - 1200·⌊x/1200⌋`, and `np.round` rounds half to even.
These definitions are `noncomputable` because exact `log2` on `ℝ` is. -/

/-- Embedding of `1200 * np.log2(f / tonic_hz)`: cents relative to the tonic. -/
noncomputable def centsOf (tonic_hz f : ℝ) : ℝ := 1200 * Real.logb 2 (f / tonic_hz)

/-- Embedding of `cents % 1200` on floats (positive modulus, sign of the divisor). -/
noncomputable def wrap1200 (c : ℝ) : ℝ := c - 1200 * ⌊c / 1200⌋

/-- Embedding of `np.round`: round half to even. -/
noncomputable def roundHalfEven (x : ℝ) : ℤ :=
  if Int.fract x = 1 / 2 then (if 2 ∣ ⌊x⌋ then ⌊x⌋ else ⌊x⌋ + 1) else round x

/-- The semitone class `np.round(cents_wrapped / 100).astype(int) % 12`
that `extract_swara_distribution` assigns to one sample. -/
noncomputable def semitoneOf (tonic_hz f : ℝ) : ℤ :=
  roundHalfEven (wrap1200 (centsOf tonic_hz f) / 100) % 12

/-- Shallow embedding of `extract_swara_distribution`: bincount the
per-sample semitone classes (always in `[0, 11]`, so `minlength=12` makes
`np.bincount` return exactly 12 bins) and normalize by the total count. -/
noncomputable def extract_swara_distribution (f0_clean : List ℝ) (tonic_hz : ℝ) : List ℝ :=
  let semitones := f0_clean.map (semitoneOf tonic_hz)
  let counts := (List.range 12).map fun j => semitones.count ((j : ℕ) : ℤ)
  counts.map fun c : ℕ => (c : ℝ) / (counts.sum : ℝ)

/-- Doubling a positive sample frequency shifts its cents value by exactly
one octave and therefore leaves its semitone class unchanged. -/
theorem semitoneOf_double (t f : ℝ) (hf : 0 < f) (ht : 0 < t) :
    semitoneOf t (2 * f) = semitoneOf t f := by
  have hc : centsOf t (2 * f) = 1200 + centsOf t f := by
    unfold centsOf
    have h2 : (2 * f) / t = 2 * (f / t) := by ring
    rw [h2, Real.logb_mul two_ne_zero (ne_of_gt (div_pos hf ht)),
      Real.logb_self_eq_one (by norm_num)]
    ring
  have hw : wrap1200 (1200 + centsOf t f) = wrap1200 (centsOf t f) := by
    unfold wrap1200
    have h3 : (1200 + centsOf t f) / 1200 = centsOf t f / 1200 + 1 := by ring
    rw [h3, Int.floor_add_one]
    push_cast
    ring
  unfold semitoneOf
  rw [hc, hw]

/-- Claim C5: octave invariance — doubling every input frequency while
keeping the tonic fixed leaves `extract_swara_distribution` unchanged,
elementwise. -/
theorem C5_octave_invariance (samples : List ℝ) (hne : samples ≠ [])
    (hpos : ∀ f ∈ samples, 0 < f) (t : ℝ) (ht : 0 < t) :
    extract_swara_distribution (samples.map fun f => 2 * f) t =
      extract_swara_distribution samples t := by
  have hsem : (samples.map fun f => 2 * f).map (semitoneOf t) =
      samples.map (semitoneOf t) := by
    rw [List.map_map]
    exact List.map_congr_left fun f hf => semitoneOf_double t f (hpos f hf) ht
  unfold extract_swara_distribution
  rw [hsem]

/-- Witness for C5 at the concrete input `[440]` with tonic `440`. -/
theorem C5_octave_invariance_witness :
    ([(440 : ℝ)] ≠ []) ∧ (∀ f ∈ [(440 : ℝ)], 0 < f) ∧ ((0 : ℝ) < 440) ∧
    extract_swara_distribution ([(440 : ℝ)].map fun f => 2 * f) 440 =
      extract_swara_distribution [(440 : ℝ)] 440 :=
  ⟨by simp, by
      intro f hf
      rw [List.mem_singleton] at hf
      rw [hf]
      norm_num,
    by norm_num,
    C5_octave_invariance [(440 : ℝ)] (by simp)
      (by
        intro f hf
        rw [List.mem_singleton] at hf
        rw [hf]
        norm_num)
      440 (by norm_num)⟩

/-- Bridge between a `List.range` sum and a `Finset.range` sum. -/
theorem sum_map_range_eq_finset_sum (n : ℕ) (f : ℕ → ℕ) :
    ((List.range n).map f).sum = ∑ j ∈ Finset.range n, f j := by
  induction n with
  | zero => simp
  | succ m ih =>
    rw [List.range_succ, List.map_append, List.sum_append, Finset.sum_range_succ, ih]
    simp

/-- Summing the 12 per-class `np.bincount` counts of a list of semitone
classes in `[0, 12)` recovers the length of the list. -/
theorem counts_sum_eq_length (l : List ℤ) (hl : ∀ z ∈ l, 0 ≤ z ∧ z < 12) :
    ((List.range 12).map fun j => l.count ((j : ℕ) : ℤ)).sum = l.length := by
  induction l with
  | nil => simp
  | cons a t ih =>
    have ha := hl a (List.mem_cons_self a t)
    have ht : ∀ z ∈ t, 0 ≤ z ∧ z < 12 := fun z hz => hl z (List.mem_cons_of_mem a hz)
    rw [sum_map_range_eq_finset_sum] at ih ⊢
    simp only [List.count_cons]
    rw [Finset.sum_add_distrib, ih ht]
    have hone : (∑ j ∈ Finset.range 12, if a == ((j : ℕ) : ℤ) then 1 else 0) = 1 := by
      have hcongr : ∀ j ∈ Finset.range 12,
          (if a == ((j : ℕ) : ℤ) then 1 else 0) = if j = a.toNat then 1 else 0 := by
        intro j hj
        have : (a == ((j : ℕ) : ℤ)) = decide (j = a.toNat) := by
          rw [Bool.eq_iff_iff]
          simp only [beq_iff_eq, decide_eq_true_eq]
          omega
        rw [this]
        simp
      rw [Finset.sum_congr rfl hcongr, Finset.sum_ite_eq' (Finset.range 12) a.toNat fun _ => 1,
        if_pos (Finset.mem_range.mpr (by omega))]
    rw [hone, List.length_cons]

/-- Dividing every entry of a cast list of naturals by a constant and
summing is summing and then dividing. -/
theorem sum_map_natCast_div (L : List ℕ) (S : ℝ) :
    (L.map fun c : ℕ => (c : ℝ) / S).sum = ((L.sum : ℕ) : ℝ) / S := by
  induction L with
  | nil => simp
  | cons a t ih =>
    rw [List.map_cons, List.sum_cons, ih, List.sum_cons]
    push_cast
    rw [add_div]

/-- Claim C6: for every non-empty sequence of positive frequencies and
positive tonic, the distribution returned by `extract_swara_distribution`
has exactly 12 elements and its elements sum to 1.0 within `1e-9`
(exactly 1, in the exact-arithmetic model). -/
theorem C6_length_and_sum (samples : List ℝ) (hne : samples ≠ [])
    (hpos : ∀ f ∈ samples, 0 < f) (t : ℝ) (ht : 0 < t) :
    (extract_swara_distribution samples t).length = 12 ∧
    |(extract_swara_distribution samples t).sum - 1| ≤ 1 / 1000000000 := by
  refine ⟨by simp [extract_swara_distribution], ?_⟩
  have hcsum : ((List.range 12).map fun j =>
      (samples.map (semitoneOf t)).count ((j : ℕ) : ℤ)).sum = samples.length := by
    rw [counts_sum_eq_length]
    · simp
    · intro z hz
      simp only [List.mem_map] at hz
      obtain ⟨f, hf, rfl⟩ := hz
      exact ⟨Int.emod_nonneg _ (by norm_num), Int.emod_lt_of_pos _ (by norm_num)⟩
  have hn : 0 < samples.length := List.length_pos.mpr hne
  have hsum : (extract_swara_distribution samples t).sum = 1 := by
    unfold extract_swara_distribution
    rw [sum_map_natCast_div, hcsum]
    have : ((samples.length : ℕ) : ℝ) ≠ 0 := by
      exact_mod_cast Nat.pos_iff_ne_zero.mp hn
    exact div_self this
  rw [hsum]
  norm_num

/-- Witness for C6 at the concrete input `[440]` with tonic `440`. -/
theorem C6_length_and_sum_witness :
    ([(440 : ℝ)] ≠ []) ∧ (∀ f ∈ [(440 : ℝ)], 0 < f) ∧ ((0 : ℝ) < 440) ∧
    ((extract_swara_distribution [(440 : ℝ)] 440).length = 12 ∧
     |(extract_swara_distribution [(440 : ℝ)] 440).sum - 1| ≤ 1 / 1000000000) :=
  ⟨by simp, by
      intro f hf
      rw [List.mem_singleton] at hf
      rw [hf]
      norm_num,
    by norm_num,
    C6_length_and_sum [(440 : ℝ)] (by simp)
      (by
        intro f hf
        rw [List.mem_singleton] at hf
        rw [hf]
        norm_num)
      440 (by norm_num)⟩

/-- Witness for C10 at the concrete two-sample input `[1, 2]`. -/
theorem C10_find_tonic_witness :
    ([(1 : ℚ), 2] ≠ []) ∧
    ((∃ (j : ℕ) (c : ℕ), j < 100 ∧ (histCounts [(1 : ℚ), 2])[j]? = some c ∧
      (∀ (k ck : ℕ), (histCounts [(1 : ℚ), 2])[k]? = some ck → ck ≤ c) ∧
      (∀ (k : ℕ), k < j → ∀ (ck : ℕ), (histCounts [(1 : ℚ), 2])[k]? = some ck → ck < c) ∧
      find_tonic [(1 : ℚ), 2] =
        (numpyRange [(1 : ℚ), 2]).1 +
          (j : ℚ) * (((numpyRange [(1 : ℚ), 2]).2 - (numpyRange [(1 : ℚ), 2]).1) / 100)) ∧
    ∃ mn mx, ([(1 : ℚ), 2]).min? = some mn ∧ ([(1 : ℚ), 2]).max? = some mx ∧
      mn ≤ find_tonic [(1 : ℚ), 2] ∧ find_tonic [(1 : ℚ), 2] ≤ mx) :=
  ⟨by simp, C10_find_tonic_first_modal_and_bounded [(1 : ℚ), 2] (by simp)⟩

/-! ### `RAGA_PATTERNS` and `RagaDetector.match_raga` from `raga_detector.py` -/

/-- One entry of the `RAGA_PATTERNS` dictionary: swara labels, semitone
intervals from Sa, and a description. -/
structure RagaInfo where
  swaras : List String
  key_intervals : List ℕ
  description : String
deriving DecidableEq

/-- The `RAGA_PATTERNS` dictionary from `raga_detector.py`.  Python dicts
preserve insertion order, so it is embedded as an association list in
source order. -/
def RAGA_PATTERNS : List (String × RagaInfo) := [
  ("Mohanam", ⟨["S", "R2", "G3", "P", "D2"], [0, 2, 4, 7, 9],
    "Janya of Harikambhoji, all shuddha swaras"⟩),
  ("Mayamalavagowla", ⟨["S", "R1", "G3", "M1", "P", "D1", "N3"], [0, 1, 4, 5, 7, 8, 11],
    "15th Melakarta, morning raga"⟩),
  ("Shankarabharanam", ⟨["S", "R2", "G3", "M1", "P", "D2", "N3"], [0, 2, 4, 5, 7, 9, 11],
    "29th Melakarta, very common"⟩),
  ("Kalyani", ⟨["S", "R2", "G3", "M2", "P", "D2", "N3"], [0, 2, 4, 6, 7, 9, 11],
    "65th Melakarta, auspicious raga"⟩),
  ("Bhairavi", ⟨["S", "R1", "G2", "M1", "P", "D1", "N2"], [0, 1, 3, 5, 7, 8, 10],
    "20th Melakarta, evening raga"⟩)]

/-- The reference distribution `raga_profile` that `match_raga` builds for
one stored profile, in exact arithmetic: weight 1 at each listed semitone,
0 elsewhere (`np.zeros(12)` plus the assignment loop), normalized by its
sum. -/
def ragaProfileQ (info : RagaInfo) : List ℚ :=
  let ind := (List.range 12).map fun k => if k ∈ info.key_intervals then (1 : ℚ) else 0
  ind.map fun v : ℚ => v / ind.sum

/-- The same reference distribution as the real vector that the
correlation is computed over. -/
noncomputable def ragaProfile (info : RagaInfo) : List ℝ :=
  let ind := (List.range 12).map fun k => if k ∈ info.key_intervals then (1 : ℝ) else 0
  ind.map fun v : ℝ => v / ind.sum

/-- Embedding of `np.mean` of a list of reals. -/
noncomputable def sampleMean (x : List ℝ) : ℝ := x.sum / x.length

/-- Centered sum of squares `Σ (xᵢ - x̄)²`. -/
noncomputable def sumSq (x : List ℝ) : ℝ := (x.map fun a : ℝ => (a - sampleMean x) ^ 2).sum

/-- Centered cross sum `Σ (xᵢ - x̄)(yᵢ - ȳ)`. -/
noncomputable def sumCross (x y : List ℝ) : ℝ :=
  ((x.zip y).map fun p => (p.1 - sampleMean x) * (p.2 - sampleMean y)).sum

/-- Embedding of `np.corrcoef(x, y)[0, 1]`.  The `1/(n-1)` normalizations of the
covariance matrix cancel in the ratio, leaving
`Σ(x-x̄)(y-ȳ) / √(Σ(x-x̄)²·Σ(y-ȳ)²)`; the clip to `[-1, 1]` is a no-op in
exact arithmetic.  When either variance is zero the float computation
yields NaN (0/0); `none` models that undefined value. -/
noncomputable def corrcoef01 (x y : List ℝ) : Option ℝ :=
  if sumSq x = 0 ∨ sumSq y = 0 then none
  else some (sumCross x y / Real.sqrt (sumSq x * sumSq y))

/-- The descending comparison on scores used by
`sorted(scores.items(), key=lambda x: x[1], reverse=True)`, an undefined
correlation (NaN) ranking at the bottom.  With this store a NaN score only
arises when the observed vector is constant, in which case every score is
NaN and Python's stable sort returns the insertion order — exactly what a
stable sort under this (then everywhere-true) relation returns as well, so
the embedding agrees with the source on every reachable input. -/
def scoreGe : Option ℝ → Option ℝ → Prop
  | _, none => True
  | none, some _ => False
  | some a, some b => b ≤ a

/-- The relation `scoreGe` lifted to the `(name, score)` pairs being sorted. -/
def scoreRel (a b : String × Option ℝ) : Prop := scoreGe a.2 b.2

noncomputable instance : DecidableRel scoreRel := fun _ _ => Classical.propDecidable _

theorem scoreGe_refl (s : Option ℝ) : scoreGe s s := by
  cases s with
  | none => exact True.intro
  | some a => exact le_refl a

instance : IsTotal (String × Option ℝ) scoreRel :=
  ⟨fun a b => by
    unfold scoreRel
    cases ha : a.2 with
    | none =>
      cases hb : b.2 with
      | none => exact Or.inl True.intro
      | some y => exact Or.inr True.intro
    | some x =>
      cases hb : b.2 with
      | none => exact Or.inl True.intro
      | some y =>
        rcases le_total y x with h | h
        · exact Or.inl h
        · exact Or.inr h⟩

instance : IsTrans (String × Option ℝ) scoreRel :=
  ⟨fun a b c hab hbc => by
    unfold scoreRel at hab hbc ⊢
    cases hc : c.2 with
    | none =>
      cases ha : a.2 with
      | none => exact True.intro
      | some x => exact True.intro
    | some z =>
      cases hb : b.2 with
      | none =>
        rw [hb, hc] at hbc
        exact hbc.elim
      | some y =>
        cases ha : a.2 with
        | none =>
          rw [ha, hb] at hab
          exact hab.elim
        | some x =>
          rw [ha, hb] at hab
          rw [hb, hc] at hbc
          exact le_trans (hbc : z ≤ y) (hab : y ≤ x)⟩

/-- The unsorted `scores` association list of `match_raga`, in store
insertion order. -/
noncomputable def rawScores (swara_dist : List ℝ) : List (String × Option ℝ) :=
  RAGA_PATTERNS.map fun e => (e.1, corrcoef01 swara_dist (ragaProfile e.2))

/-- Shallow embedding of `match_raga`: score every stored profile and sort
descending by score.  `sorted(…, reverse=True)` is the stable descending
sort; for totally preordered keys the stable sort is unique, and
`List.insertionSort scoreRel` is stable (ties keep list order), so it is
that sort. -/
noncomputable def match_raga (swara_dist : List ℝ) : List (String × Option ℝ) :=
  List.insertionSort scoreRel (rawScores swara_dist)

/-! Rational shadows of the correlation statistics, used to evaluate the
concrete stored profiles exactly. -/

/-- The mean `qMean` is `sampleMean` over `ℚ`. -/
def qMean (x : List ℚ) : ℚ := x.sum / x.length

/-- The statistic `qSumSq` is `sumSq` over `ℚ`. -/
def qSumSq (x : List ℚ) : ℚ := (x.map fun a : ℚ => (a - qMean x) ^ 2).sum

/-- The statistic `qSumCross` is `sumCross` over `ℚ`. -/
def qSumCross (x y : List ℚ) : ℚ :=
  ((x.zip y).map fun p => (p.1 - qMean x) * (p.2 - qMean y)).sum

theorem range_twelve : List.range 12 = [0, 1, 2, 3, 4, 5, 6, 7, 8, 9, 10, 11] := by rfl

/-- The real reference profile is the cast of its rational shadow. -/
theorem ragaProfile_eq_cast (info : RagaInfo) :
    ragaProfile info = (ragaProfileQ info).map fun q : ℚ => (q : ℝ) := by
  unfold ragaProfile ragaProfileQ
  have hsum : ((List.range 12).map fun k => if k ∈ info.key_intervals then (1 : ℝ) else 0).sum =
      ((((List.range 12).map fun k =>
          if k ∈ info.key_intervals then (1 : ℚ) else 0).sum : ℚ) : ℝ) := by
    rw [Rat.cast_list_sum, List.map_map]
    apply congrArg List.sum
    apply List.map_congr_left
    intro j _
    simp only [Function.comp_apply]
    by_cases h : j ∈ info.key_intervals <;> simp [h]
  rw [List.map_map, List.map_map, List.map_map]
  apply List.map_congr_left
  intro k _
  simp only [Function.comp_apply]
  rw [hsum]
  by_cases h : k ∈ info.key_intervals
  · simp only [if_pos h]
    push_cast
    ring
  · simp only [if_neg h]
    push_cast
    ring

theorem sampleMean_cast (x : List ℚ) :
    sampleMean (x.map fun q : ℚ => (q : ℝ)) = (qMean x : ℝ) := by
  unfold sampleMean qMean
  rw [List.length_map, ← Rat.cast_list_sum]
  push_cast
  ring

theorem sumSq_cast (x : List ℚ) :
    sumSq (x.map fun q : ℚ => (q : ℝ)) = (qSumSq x : ℝ) := by
  unfold sumSq qSumSq
  rw [sampleMean_cast, List.map_map, Rat.cast_list_sum, List.map_map]
  apply congrArg List.sum
  apply List.map_congr_left
  intro a _
  simp only [Function.comp_apply]
  push_cast
  ring

theorem sumCross_cast (x y : List ℚ) :
    sumCross (x.map fun q : ℚ => (q : ℝ)) (y.map fun q : ℚ => (q : ℝ)) =
      (qSumCross x y : ℝ) := by
  unfold sumCross qSumCross
  rw [sampleMean_cast, sampleMean_cast, List.zip_map, List.map_map, Rat.cast_list_sum,
    List.map_map]
  apply congrArg List.sum
  apply List.map_congr_left
  intro p _
  simp only [Function.comp_apply, Prod.map_fst, Prod.map_snd]
  push_cast
  ring

theorem corrcoef01_cast (x y : List ℚ) :
    corrcoef01 (x.map fun q : ℚ => (q : ℝ)) (y.map fun q : ℚ => (q : ℝ)) =
      if qSumSq x = 0 ∨ qSumSq y = 0 then none
      else some ((qSumCross x y : ℝ) / Real.sqrt ((qSumSq x : ℝ) * (qSumSq y : ℝ))) := by
  unfold corrcoef01
  rw [sumSq_cast, sumSq_cast, sumCross_cast]
  by_cases h : qSumSq x = 0 ∨ qSumSq y = 0
  · have h' : (qSumSq x : ℝ) = 0 ∨ (qSumSq y : ℝ) = 0 := by
      rcases h with h | h
      · exact Or.inl (by exact_mod_cast h)
      · exact Or.inr (by exact_mod_cast h)
    rw [if_pos h', if_pos h]
  · have h' : ¬ ((qSumSq x : ℝ) = 0 ∨ (qSumSq y : ℝ) = 0) := by
      push_neg at h ⊢
      exact ⟨by exact_mod_cast h.1, by exact_mod_cast h.2⟩
    rw [if_neg h', if_neg h]

theorem qSumSq_nonneg (x : List ℚ) : 0 ≤ qSumSq x := by
  apply List.sum_nonneg
  intro a ha
  rw [List.mem_map] at ha
  obtain ⟨q, _, rfl⟩ := ha
  exact sq_nonneg _

theorem zip_self_map (l : List ℚ) (m : ℚ) :
    ((l.zip l).map fun p => (p.1 - m) * (p.2 - m)) = l.map fun a : ℚ => (a - m) * (a - m) := by
  induction l with
  | nil => rfl
  | cons a t ih =>
    simp only [List.zip_cons_cons, List.map_cons]
    rw [ih]

/-- Over a non-constant vector, the correlation of a vector with itself is
exactly 1. -/
theorem corrcoef01_cast_self (x : List ℚ) (hx : qSumSq x ≠ 0) :
    corrcoef01 (x.map fun q : ℚ => (q : ℝ)) (x.map fun q : ℚ => (q : ℝ)) = some 1 := by
  rw [corrcoef01_cast, if_neg (by push_neg; exact ⟨hx, hx⟩)]
  have hxx : qSumCross x x = qSumSq x := by
    unfold qSumCross qSumSq
    rw [zip_self_map]
    apply congrArg List.sum
    apply List.map_congr_left
    intro a _
    ring
  rw [hxx]
  have h0 : (0 : ℚ) < qSumSq x := lt_of_le_of_ne (qSumSq_nonneg x) (Ne.symm hx)
  have h0' : (0 : ℝ) < (qSumSq x : ℝ) := by exact_mod_cast h0
  rw [Real.sqrt_mul_self (le_of_lt h0')]
  exact congrArg some (div_self (ne_of_gt h0'))

/-- The correlation `corrcoef01` of a stored profile with itself is `some 1`. -/
theorem ragaProfile_corr_self (p : RagaInfo) (hp : qSumSq (ragaProfileQ p) ≠ 0) :
    corrcoef01 (ragaProfile p) (ragaProfile p) = some 1 := by
  rw [ragaProfile_eq_cast]
  exact corrcoef01_cast_self _ hp

/-- The correlation `corrcoef01` between two stored profiles is a defined value strictly
below 1 whenever both variances are positive and the (rational)
Cauchy-Schwarz comparison is strict or the cross term is nonpositive. -/
theorem ragaProfile_corr_lt_one (p q : RagaInfo)
    (hp : 0 < qSumSq (ragaProfileQ p)) (hq : 0 < qSumSq (ragaProfileQ q))
    (hpq : qSumCross (ragaProfileQ p) (ragaProfileQ q) ≤ 0 ∨
      qSumCross (ragaProfileQ p) (ragaProfileQ q) ^ 2 <
        qSumSq (ragaProfileQ p) * qSumSq (ragaProfileQ q)) :
    ∃ v : ℝ, corrcoef01 (ragaProfile p) (ragaProfile q) = some v ∧ v < 1 := by
  rw [ragaProfile_eq_cast p, ragaProfile_eq_cast q, corrcoef01_cast,
    if_neg (by push_neg; exact ⟨ne_of_gt hp, ne_of_gt hq⟩)]
  refine ⟨_, rfl, ?_⟩
  have hprod : (0 : ℝ) < (qSumSq (ragaProfileQ p) : ℝ) * (qSumSq (ragaProfileQ q) : ℝ) := by
    have := mul_pos hp hq
    exact_mod_cast this
  have hsqrt : 0 < Real.sqrt ((qSumSq (ragaProfileQ p) : ℝ) * (qSumSq (ragaProfileQ q) : ℝ)) :=
    Real.sqrt_pos.mpr hprod
  rw [div_lt_one hsqrt]
  rcases hpq with h | h
  · exact lt_of_le_of_lt (by exact_mod_cast h) hsqrt
  · by_cases hc : (qSumCross (ragaProfileQ p) (ragaProfileQ q) : ℝ) ≤ 0
    · exact lt_of_le_of_lt hc hsqrt
    · push_neg at hc
      refine (Real.lt_sqrt (le_of_lt hc)).mpr ?_
      exact_mod_cast h

/-! Stability of `List.insertionSort` (a stable sort keeps the relative
order of elements whose keys tie), phrased through `List.filter`. -/

theorem filter_orderedInsert_of_neg {α : Type} (r : α → α → Prop) [DecidableRel r]
    (p : α → Bool) (b : α) (hb : p b = false) :
    ∀ l : List α, (l.orderedInsert r b).filter p = l.filter p := by
  intro l
  induction l with
  | nil => simp [List.orderedInsert, hb]
  | cons c t ih =>
    simp only [List.orderedInsert]
    by_cases h : r b c
    · rw [if_pos h]
      simp [List.filter_cons, hb]
    · rw [if_neg h]
      simp only [List.filter_cons, ih]

theorem filter_orderedInsert_of_pos {α : Type} (r : α → α → Prop) [DecidableRel r]
    (p : α → Bool) (b : α) (hb : p b = true) (hcl : ∀ x, p x = true → r b x) :
    ∀ l : List α, (l.orderedInsert r b).filter p = b :: l.filter p := by
  intro l
  induction l with
  | nil => simp [List.orderedInsert, hb]
  | cons c t ih =>
    simp only [List.orderedInsert]
    by_cases h : r b c
    · rw [if_pos h]
      simp [List.filter_cons, hb]
    · rw [if_neg h]
      have hc : p c = false := by
        by_contra hc'
        exact h (hcl c (by simpa using hc'))
      simp only [List.filter_cons, hc, ih]
      rfl

theorem filter_insertionSort {α : Type} (r : α → α → Prop) [DecidableRel r]
    (p : α → Bool) (hcl : ∀ x y, p x = true → p y = true → r x y) :
    ∀ l : List α, (List.insertionSort r l).filter p = l.filter p := by
  intro l
  induction l with
  | nil => rfl
  | cons b t ih =>
    simp only [List.insertionSort]
    by_cases hb : p b = true
    · rw [filter_orderedInsert_of_pos r p b hb (fun x hx => hcl b x hb hx), ih]
      simp [List.filter_cons, hb]
    · have hb' : p b = false := by
        simpa using hb
      rw [filter_orderedInsert_of_neg r p b hb', ih]
      simp [List.filter_cons, hb']

/-- If one element of the list is strictly above every other element in
the sort order, a sorted permutation of the list starts with it. -/
theorem insertionSort_head_of_max {α : Type} (r : α → α → Prop) [DecidableRel r]
    [IsTotal α r] [IsTrans α r] (l : List α) (m : α) (hm : m ∈ l)
    (hmax : ∀ x ∈ l, x = m ∨ (r m x ∧ ¬ r x m)) :
    (List.insertionSort r l).head? = some m := by
  have hm' : m ∈ List.insertionSort r l := (List.mem_insertionSort r).mpr hm
  have hsorted := List.sorted_insertionSort r l
  cases hout : List.insertionSort r l with
  | nil =>
    rw [hout] at hm'
    exact absurd hm' (List.not_mem_nil m)
  | cons h t =>
    rw [hout] at hm' hsorted
    have hh : h ∈ l := (List.mem_insertionSort r).mp (by rw [hout]; exact List.mem_cons_self h t)
    rcases hmax h hh with rfl | ⟨hr1, hr2⟩
    · rfl
    · rcases List.mem_cons.mp hm' with rfl | hmt
      · exact absurd ((IsTotal.total m m).elim id id) hr2
      · exact absurd (List.rel_of_sorted_cons hsorted m hmt) hr2

/-- Claim C7: if the observed 12-bin distribution exactly equals the
normalized indicator reference distribution of some stored profile, and no
two stored profiles share an interval set, then `match_raga` assigns that
profile the correlation score 1.0 and places it first in the ranking. -/
theorem C7_exact_profile_match_ranks_first (e : String × RagaInfo)
    (he : e ∈ RAGA_PATTERNS)
    (hdis : RAGA_PATTERNS.Pairwise fun a b =>
      a.2.key_intervals.toFinset ≠ b.2.key_intervals.toFinset)
    (d : List ℝ) (hd : d = ragaProfile e.2) :
    (match_raga d).head? = some (e.1, some 1) := by
  subst hd
  unfold match_raga
  simp only [RAGA_PATTERNS, List.mem_cons, List.not_mem_nil, or_false] at he
  rcases he with rfl | rfl | rfl | rfl | rfl
  · -- observed distribution equals the Mohanam reference profile
    dsimp only
    have hself : corrcoef01 (ragaProfile (⟨["S", "R2", "G3", "P", "D2"], [0, 2, 4, 7, 9], "Janya of Harikambhoji, all shuddha swaras"⟩ : RagaInfo))
        (ragaProfile (⟨["S", "R2", "G3", "P", "D2"], [0, 2, 4, 7, 9], "Janya of Harikambhoji, all shuddha swaras"⟩ : RagaInfo)) = some 1 :=
      ragaProfile_corr_self _ (by norm_num [qSumSq, qMean, ragaProfileQ, range_twelve])
    obtain ⟨v1, hv1, hlt1⟩ := ragaProfile_corr_lt_one (⟨["S", "R2", "G3", "P", "D2"], [0, 2, 4, 7, 9], "Janya of Harikambhoji, all shuddha swaras"⟩ : RagaInfo)
      (⟨["S", "R1", "G3", "M1", "P", "D1", "N3"], [0, 1, 4, 5, 7, 8, 11], "15th Melakarta, morning raga"⟩ : RagaInfo)
      (by norm_num [qSumSq, qMean, ragaProfileQ, range_twelve]) (by norm_num [qSumSq, qMean, ragaProfileQ, range_twelve])
      (by norm_num [qSumCross, qSumSq, qMean, ragaProfileQ, range_twelve])
    obtain ⟨v2, hv2, hlt2⟩ := ragaProfile_corr_lt_one (⟨["S", "R2", "G3", "P", "D2"], [0, 2, 4, 7, 9], "Janya of Harikambhoji, all shuddha swaras"⟩ : RagaInfo)
      (⟨["S", "R2", "G3", "M1", "P", "D2", "N3"], [0, 2, 4, 5, 7, 9, 11], "29th Melakarta, very common"⟩ : RagaInfo)
      (by norm_num [qSumSq, qMean, ragaProfileQ, range_twelve]) (by norm_num [qSumSq, qMean, ragaProfileQ, range_twelve])
      (by norm_num [qSumCross, qSumSq, qMean, ragaProfileQ, range_twelve])
    obtain ⟨v3, hv3, hlt3⟩ := ragaProfile_corr_lt_one (⟨["S", "R2", "G3", "P", "D2"], [0, 2, 4, 7, 9], "Janya of Harikambhoji, all shuddha swaras"⟩ : RagaInfo)
      (⟨["S", "R2", "G3", "M2", "P", "D2", "N3"], [0, 2, 4, 6, 7, 9, 11], "65th Melakarta, auspicious raga"⟩ : RagaInfo)
      (by norm_num [qSumSq, qMean, ragaProfileQ, range_twelve]) (by norm_num [qSumSq, qMean, ragaProfileQ, range_twelve])
      (by norm_num [qSumCross, qSumSq, qMean, ragaProfileQ, range_twelve])
    obtain ⟨v4, hv4, hlt4⟩ := ragaProfile_corr_lt_one (⟨["S", "R2", "G3", "P", "D2"], [0, 2, 4, 7, 9], "Janya of Harikambhoji, all shuddha swaras"⟩ : RagaInfo)
      (⟨["S", "R1", "G2", "M1", "P", "D1", "N2"], [0, 1, 3, 5, 7, 8, 10], "20th Melakarta, evening raga"⟩ : RagaInfo)
      (by norm_num [qSumSq, qMean, ragaProfileQ, range_twelve]) (by norm_num [qSumSq, qMean, ragaProfileQ, range_twelve])
      (by norm_num [qSumCross, qSumSq, qMean, ragaProfileQ, range_twelve])
    apply insertionSort_head_of_max
    · simp only [rawScores, RAGA_PATTERNS, List.map_cons, List.map_nil]
      rw [hself]
      exact List.mem_cons_self _ _
    · intro x hx
      simp only [rawScores, RAGA_PATTERNS, List.map_cons, List.map_nil, List.mem_cons,
        List.not_mem_nil, or_false] at hx
      rcases hx with rfl | rfl | rfl | rfl | rfl
      · left
        rw [hself]
      · right
        rw [hv1]
        exact ⟨le_of_lt hlt1, not_le.mpr hlt1⟩
      · right
        rw [hv2]
        exact ⟨le_of_lt hlt2, not_le.mpr hlt2⟩
      · right
        rw [hv3]
        exact ⟨le_of_lt hlt3, not_le.mpr hlt3⟩
      · right
        rw [hv4]
        exact ⟨le_of_lt hlt4, not_le.mpr hlt4⟩
  · -- observed distribution equals the Mayamalavagowla reference profile
    dsimp only
    have hself : corrcoef01 (ragaProfile (⟨["S", "R1", "G3", "M1", "P", "D1", "N3"], [0, 1, 4, 5, 7, 8, 11], "15th Melakarta, morning raga"⟩ : RagaInfo))
        (ragaProfile (⟨["S", "R1", "G3", "M1", "P", "D1", "N3"], [0, 1, 4, 5, 7, 8, 11], "15th Melakarta, morning raga"⟩ : RagaInfo)) = some 1 :=
      ragaProfile_corr_self _ (by norm_num [qSumSq, qMean, ragaProfileQ, range_twelve])
    obtain ⟨v0, hv0, hlt0⟩ := ragaProfile_corr_lt_one (⟨["S", "R1", "G3", "M1", "P", "D1", "N3"], [0, 1, 4, 5, 7, 8, 11], "15th Melakarta, morning raga"⟩ : RagaInfo)
      (⟨["S", "R2", "G3", "P", "D2"], [0, 2, 4, 7, 9], "Janya of Harikambhoji, all shuddha swaras"⟩ : RagaInfo)
      (by norm_num [qSumSq, qMean, ragaProfileQ, range_twelve]) (by norm_num [qSumSq, qMean, ragaProfileQ, range_twelve])
      (by norm_num [qSumCross, qSumSq, qMean, ragaProfileQ, range_twelve])
    obtain ⟨v2, hv2, hlt2⟩ := ragaProfile_corr_lt_one (⟨["S", "R1", "G3", "M1", "P", "D1", "N3"], [0, 1, 4, 5, 7, 8, 11], "15th Melakarta, morning raga"⟩ : RagaInfo)
      (⟨["S", "R2", "G3", "M1", "P", "D2", "N3"], [0, 2, 4, 5, 7, 9, 11], "29th Melakarta, very common"⟩ : RagaInfo)
      (by norm_num [qSumSq, qMean, ragaProfileQ, range_twelve]) (by norm_num [qSumSq, qMean, ragaProfileQ, range_twelve])
      (by norm_num [qSumCross, qSumSq, qMean, ragaProfileQ, range_twelve])
    obtain ⟨v3, hv3, hlt3⟩ := ragaProfile_corr_lt_one (⟨["S", "R1", "G3", "M1", "P", "D1", "N3"], [0, 1, 4, 5, 7, 8, 11], "15th Melakarta, morning raga"⟩ : RagaInfo)
      (⟨["S", "R2", "G3", "M2", "P", "D2", "N3"], [0, 2, 4, 6, 7, 9, 11], "65th Melakarta, auspicious raga"⟩ : RagaInfo)
      (by norm_num [qSumSq, qMean, ragaProfileQ, range_twelve]) (by norm_num [qSumSq, qMean, ragaProfileQ, range_twelve])
      (by norm_num [qSumCross, qSumSq, qMean, ragaProfileQ, range_twelve])
    obtain ⟨v4, hv4, hlt4⟩ := ragaProfile_corr_lt_one (⟨["S", "R1", "G3", "M1", "P", "D1", "N3"], [0, 1, 4, 5, 7, 8, 11], "15th Melakarta, morning raga"⟩ : RagaInfo)
      (⟨["S", "R1", "G2", "M1", "P", "D1", "N2"], [0, 1, 3, 5, 7, 8, 10], "20th Melakarta, evening raga"⟩ : RagaInfo)
      (by norm_num [qSumSq, qMean, ragaProfileQ, range_twelve]) (by norm_num [qSumSq, qMean, ragaProfileQ, range_twelve])
      (by norm_num [qSumCross, qSumSq, qMean, ragaProfileQ, range_twelve])
    apply insertionSort_head_of_max
    · simp only [rawScores, RAGA_PATTERNS, List.map_cons, List.map_nil]
      rw [hself]
      exact List.mem_cons_of_mem _ (List.mem_cons_self _ _)
    · intro x hx
      simp only [rawScores, RAGA_PATTERNS, List.map_cons, List.map_nil, List.mem_cons,
        List.not_mem_nil, or_false] at hx
      rcases hx with rfl | rfl | rfl | rfl | rfl
      · right
        rw [hv0]
        exact ⟨le_of_lt hlt0, not_le.mpr hlt0⟩
      · left
        rw [hself]
      · right
        rw [hv2]
        exact ⟨le_of_lt hlt2, not_le.mpr hlt2⟩
      · right
        rw [hv3]
        exact ⟨le_of_lt hlt3, not_le.mpr hlt3⟩
      · right
        rw [hv4]
        exact ⟨le_of_lt hlt4, not_le.mpr hlt4⟩
  · -- observed distribution equals the Shankarabharanam reference profile
    dsimp only
    have hself : corrcoef01 (ragaProfile (⟨["S", "R2", "G3", "M1", "P", "D2", "N3"], [0, 2, 4, 5, 7, 9, 11], "29th Melakarta, very common"⟩ : RagaInfo))
        (ragaProfile (⟨["S", "R2", "G3", "M1", "P", "D2", "N3"], [0, 2, 4, 5, 7, 9, 11], "29th Melakarta, very common"⟩ : RagaInfo)) = some 1 :=
      ragaProfile_corr_self _ (by norm_num [qSumSq, qMean, ragaProfileQ, range_twelve])
    obtain ⟨v0, hv0, hlt0⟩ := ragaProfile_corr_lt_one (⟨["S", "R2", "G3", "M1", "P", "D2", "N3"], [0, 2, 4, 5, 7, 9, 11], "29th Melakarta, very common"⟩ : RagaInfo)
      (⟨["S", "R2", "G3", "P", "D2"], [0, 2, 4, 7, 9], "Janya of Harikambhoji, all shuddha swaras"⟩ : RagaInfo)
      (by norm_num [qSumSq, qMean, ragaProfileQ, range_twelve]) (by norm_num [qSumSq, qMean, ragaProfileQ, range_twelve])
      (by norm_num [qSumCross, qSumSq, qMean, ragaProfileQ, range_twelve])
    obtain ⟨v1, hv1, hlt1⟩ := ragaProfile_corr_lt_one (⟨["S", "R2", "G3", "M1", "P", "D2", "N3"], [0, 2, 4, 5, 7, 9, 11], "29th Melakarta, very common"⟩ : RagaInfo)
      (⟨["S", "R1", "G3", "M1", "P", "D1", "N3"], [0, 1, 4, 5, 7, 8, 11], "15th Melakarta, morning raga"⟩ : RagaInfo)
      (by norm_num [qSumSq, qMean, ragaProfileQ, range_twelve]) (by norm_num [qSumSq, qMean, ragaProfileQ, range_twelve])
      (by norm_num [qSumCross, qSumSq, qMean, ragaProfileQ, range_twelve])
    obtain ⟨v3, hv3, hlt3⟩ := ragaProfile_corr_lt_one (⟨["S", "R2", "G3", "M1", "P", "D2", "N3"], [0, 2, 4, 5, 7, 9, 11], "29th Melakarta, very common"⟩ : RagaInfo)
      (⟨["S", "R2", "G3", "M2", "P", "D2", "N3"], [0, 2, 4, 6, 7, 9, 11], "65th Melakarta, auspicious raga"⟩ : RagaInfo)
      (by norm_num [qSumSq, qMean, ragaProfileQ, range_twelve]) (by norm_num [qSumSq, qMean, ragaProfileQ, range_twelve])
      (by norm_num [qSumCross, qSumSq, qMean, ragaProfileQ, range_twelve])
    obtain ⟨v4, hv4, hlt4⟩ := ragaProfile_corr_lt_one (⟨["S", "R2", "G3", "M1", "P", "D2", "N3"], [0, 2, 4, 5, 7, 9, 11], "29th Melakarta, very common"⟩ : RagaInfo)
      (⟨["S", "R1", "G2", "M1", "P", "D1", "N2"], [0, 1, 3, 5, 7, 8, 10], "20th Melakarta, evening raga"⟩ : RagaInfo)
      (by norm_num [qSumSq, qMean, ragaProfileQ, range_twelve]) (by norm_num [qSumSq, qMean, ragaProfileQ, range_twelve])
      (by norm_num [qSumCross, qSumSq, qMean, ragaProfileQ, range_twelve])
    apply insertionSort_head_of_max
    · simp only [rawScores, RAGA_PATTERNS, List.map_cons, List.map_nil]
      rw [hself]
      exact List.mem_cons_of_mem _ (List.mem_cons_of_mem _ (List.mem_cons_self _ _))
    · intro x hx
      simp only [rawScores, RAGA_PATTERNS, List.map_cons, List.map_nil, List.mem_cons,
        List.not_mem_nil, or_false] at hx
      rcases hx with rfl | rfl | rfl | rfl | rfl
      · right
        rw [hv0]
        exact ⟨le_of_lt hlt0, not_le.mpr hlt0⟩
      · right
        rw [hv1]
        exact ⟨le_of_lt hlt1, not_le.mpr hlt1⟩
      · left
        rw [hself]
      · right
        rw [hv3]
        exact ⟨le_of_lt hlt3, not_le.mpr hlt3⟩
      · right
        rw [hv4]
        exact ⟨le_of_lt hlt4, not_le.mpr hlt4⟩
  · -- observed distribution equals the Kalyani reference profile
    dsimp only
    have hself : corrcoef01 (ragaProfile (⟨["S", "R2", "G3", "M2", "P", "D2", "N3"], [0, 2, 4, 6, 7, 9, 11], "65th Melakarta, auspicious raga"⟩ : RagaInfo))
        (ragaProfile (⟨["S", "R2", "G3", "M2", "P", "D2", "N3"], [0, 2, 4, 6, 7, 9, 11], "65th Melakarta, auspicious raga"⟩ : RagaInfo)) = some 1 :=
      ragaProfile_corr_self _ (by norm_num [qSumSq, qMean, ragaProfileQ, range_twelve])
    obtain ⟨v0, hv0, hlt0⟩ := ragaProfile_corr_lt_one (⟨["S", "R2", "G3", "M2", "P", "D2", "N3"], [0, 2, 4, 6, 7, 9, 11], "65th Melakarta, auspicious raga"⟩ : RagaInfo)
      (⟨["S", "R2", "G3", "P", "D2"], [0, 2, 4, 7, 9], "Janya of Harikambhoji, all shuddha swaras"⟩ : RagaInfo)
      (by norm_num [qSumSq, qMean, ragaProfileQ, range_twelve]) (by norm_num [qSumSq, qMean, ragaProfileQ, range_twelve])
      (by norm_num [qSumCross, qSumSq, qMean, ragaProfileQ, range_twelve])
    obtain ⟨v1, hv1, hlt1⟩ := ragaProfile_corr_lt_one (⟨["S", "R2", "G3", "M2", "P", "D2", "N3"], [0, 2, 4, 6, 7, 9, 11], "65th Melakarta, auspicious raga"⟩ : RagaInfo)
      (⟨["S", "R1", "G3", "M1", "P", "D1", "N3"], [0, 1, 4, 5, 7, 8, 11], "15th Melakarta, morning raga"⟩ : RagaInfo)
      (by norm_num [qSumSq, qMean, ragaProfileQ, range_twelve]) (by norm_num [qSumSq, qMean, ragaProfileQ, range_twelve])
      (by norm_num [qSumCross, qSumSq, qMean, ragaProfileQ, range_twelve])
    obtain ⟨v2, hv2, hlt2⟩ := ragaProfile_corr_lt_one (⟨["S", "R2", "G3", "M2", "P", "D2", "N3"], [0, 2, 4, 6, 7, 9, 11], "65th Melakarta, auspicious raga"⟩ : RagaInfo)
      (⟨["S", "R2", "G3", "M1", "P", "D2", "N3"], [0, 2, 4, 5, 7, 9, 11], "29th Melakarta, very common"⟩ : RagaInfo)
      (by norm_num [qSumSq, qMean, ragaProfileQ, range_twelve]) (by norm_num [qSumSq, qMean, ragaProfileQ, range_twelve])
      (by norm_num [qSumCross, qSumSq, qMean, ragaProfileQ, range_twelve])
    obtain ⟨v4, hv4, hlt4⟩ := ragaProfile_corr_lt_one (⟨["S", "R2", "G3", "M2", "P", "D2", "N3"], [0, 2, 4, 6, 7, 9, 11], "65th Melakarta, auspicious raga"⟩ : RagaInfo)
      (⟨["S", "R1", "G2", "M1", "P", "D1", "N2"], [0, 1, 3, 5, 7, 8, 10], "20th Melakarta, evening raga"⟩ : RagaInfo)
      (by norm_num [qSumSq, qMean, ragaProfileQ, range_twelve]) (by norm_num [qSumSq, qMean, ragaProfileQ, range_twelve])
      (by norm_num [qSumCross, qSumSq, qMean, ragaProfileQ, range_twelve])
    apply insertionSort_head_of_max
    · simp only [rawScores, RAGA_PATTERNS, List.map_cons, List.map_nil]
      rw [hself]
      exact List.mem_cons_of_mem _ (List.mem_cons_of_mem _ (List.mem_cons_of_mem _ (List.mem_cons_self _ _)))
    · intro x hx
      simp only [rawScores, RAGA_PATTERNS, List.map_cons, List.map_nil, List.mem_cons,
        List.not_mem_nil, or_false] at hx
      rcases hx with rfl | rfl | rfl | rfl | rfl
      · right
        rw [hv0]
        exact ⟨le_of_lt hlt0, not_le.mpr hlt0⟩
      · right
        rw [hv1]
        exact ⟨le_of_lt hlt1, not_le.mpr hlt1⟩
      · right
        rw [hv2]
        exact ⟨le_of_lt hlt2, not_le.mpr hlt2⟩
      · left
        rw [hself]
      · right
        rw [hv4]
        exact ⟨le_of_lt hlt4, not_le.mpr hlt4⟩
  · -- observed distribution equals the Bhairavi reference profile
    dsimp only
    have hself : corrcoef01 (ragaProfile (⟨["S", "R1", "G2", "M1", "P", "D1", "N2"], [0, 1, 3, 5, 7, 8, 10], "20th Melakarta, evening raga"⟩ : RagaInfo))
        (ragaProfile (⟨["S", "R1", "G2", "M1", "P", "D1", "N2"], [0, 1, 3, 5, 7, 8, 10], "20th Melakarta, evening raga"⟩ : RagaInfo)) = some 1 :=
      ragaProfile_corr_self _ (by norm_num [qSumSq, qMean, ragaProfileQ, range_twelve])
    obtain ⟨v0, hv0, hlt0⟩ := ragaProfile_corr_lt_one (⟨["S", "R1", "G2", "M1", "P", "D1", "N2"], [0, 1, 3, 5, 7, 8, 10], "20th Melakarta, evening raga"⟩ : RagaInfo)
      (⟨["S", "R2", "G3", "P", "D2"], [0, 2, 4, 7, 9], "Janya of Harikambhoji, all shuddha swaras"⟩ : RagaInfo)
      (by norm_num [qSumSq, qMean, ragaProfileQ, range_twelve]) (by norm_num [qSumSq, qMean, ragaProfileQ, range_twelve])
      (by norm_num [qSumCross, qSumSq, qMean, ragaProfileQ, range_twelve])
    obtain ⟨v1, hv1, hlt1⟩ := ragaProfile_corr_lt_one (⟨["S", "R1", "G2", "M1", "P", "D1", "N2"], [0, 1, 3, 5, 7, 8, 10], "20th Melakarta, evening raga"⟩ : RagaInfo)
      (⟨["S", "R1", "G3", "M1", "P", "D1", "N3"], [0, 1, 4, 5, 7, 8, 11], "15th Melakarta, morning raga"⟩ : RagaInfo)
      (by norm_num [qSumSq, qMean, ragaProfileQ, range_twelve]) (by norm_num [qSumSq, qMean, ragaProfileQ, range_twelve])
      (by norm_num [qSumCross, qSumSq, qMean, ragaProfileQ, range_twelve])
    obtain ⟨v2, hv2, hlt2⟩ := ragaProfile_corr_lt_one (⟨["S", "R1", "G2", "M1", "P", "D1", "N2"], [0, 1, 3, 5, 7, 8, 10], "20th Melakarta, evening raga"⟩ : RagaInfo)
      (⟨["S", "R2", "G3", "M1", "P", "D2", "N3"], [0, 2, 4, 5, 7, 9, 11], "29th Melakarta, very common"⟩ : RagaInfo)
      (by norm_num [qSumSq, qMean, ragaProfileQ, range_twelve]) (by norm_num [qSumSq, qMean, ragaProfileQ, range_twelve])
      (by norm_num [qSumCross, qSumSq, qMean, ragaProfileQ, range_twelve])
    obtain ⟨v3, hv3, hlt3⟩ := ragaProfile_corr_lt_one (⟨["S", "R1", "G2", "M1", "P", "D1", "N2"], [0, 1, 3, 5, 7, 8, 10], "20th Melakarta, evening raga"⟩ : RagaInfo)
      (⟨["S", "R2", "G3", "M2", "P", "D2", "N3"], [0, 2, 4, 6, 7, 9, 11], "65th Melakarta, auspicious raga"⟩ : RagaInfo)
      (by norm_num [qSumSq, qMean, ragaProfileQ, range_twelve]) (by norm_num [qSumSq, qMean, ragaProfileQ, range_twelve])
      (by norm_num [qSumCross, qSumSq, qMean, ragaProfileQ, range_twelve])
    apply insertionSort_head_of_max
    · simp only [rawScores, RAGA_PATTERNS, List.map_cons, List.map_nil]
      rw [hself]
      exact List.mem_cons_of_mem _ (List.mem_cons_of_mem _ (List.mem_cons_of_mem _ (List.mem_cons_of_mem _ (List.mem_cons_self _ _))))
    · intro x hx
      simp only [rawScores, RAGA_PATTERNS, List.map_cons, List.map_nil, List.mem_cons,
        List.not_mem_nil, or_false] at hx
      rcases hx with rfl | rfl | rfl | rfl | rfl
      · right
        rw [hv0]
        exact ⟨le_of_lt hlt0, not_le.mpr hlt0⟩
      · right
        rw [hv1]
        exact ⟨le_of_lt hlt1, not_le.mpr hlt1⟩
      · right
        rw [hv2]
        exact ⟨le_of_lt hlt2, not_le.mpr hlt2⟩
      · right
        rw [hv3]
        exact ⟨le_of_lt hlt3, not_le.mpr hlt3⟩
      · left
        rw [hself]

/-- Witness for C7: the equal-weight distribution on semitone classes
{0,2,4,5,7,9,11} (the major-scale pattern of Melakarta #29) is exactly the
Shankarabharanam reference profile, and `match_raga` ranks that profile
first with score 1.0. -/
theorem C7_exact_profile_match_witness :
    (("Shankarabharanam", (⟨["S", "R2", "G3", "M1", "P", "D2", "N3"], [0, 2, 4, 5, 7, 9, 11],
        "29th Melakarta, very common"⟩ : RagaInfo)) ∈ RAGA_PATTERNS) ∧
    (RAGA_PATTERNS.Pairwise fun a b =>
      a.2.key_intervals.toFinset ≠ b.2.key_intervals.toFinset) ∧
    ([(1 : ℝ)/7, 0, 1/7, 0, 1/7, 1/7, 0, 1/7, 0, 1/7, 0, 1/7] =
      ragaProfile (⟨["S", "R2", "G3", "M1", "P", "D2", "N3"], [0, 2, 4, 5, 7, 9, 11],
        "29th Melakarta, very common"⟩ : RagaInfo)) ∧
    (match_raga [(1 : ℝ)/7, 0, 1/7, 0, 1/7, 1/7, 0, 1/7, 0, 1/7, 0, 1/7]).head? =
      some ("Shankarabharanam", some 1) := by
  have hmem : ("Shankarabharanam", (⟨["S", "R2", "G3", "M1", "P", "D2", "N3"],
      [0, 2, 4, 5, 7, 9, 11], "29th Melakarta, very common"⟩ : RagaInfo)) ∈ RAGA_PATTERNS := by
    decide
  have hdis : RAGA_PATTERNS.Pairwise fun a b =>
      a.2.key_intervals.toFinset ≠ b.2.key_intervals.toFinset := by
    decide
  have hprof : [(1 : ℝ)/7, 0, 1/7, 0, 1/7, 1/7, 0, 1/7, 0, 1/7, 0, 1/7] =
      ragaProfile (⟨["S", "R2", "G3", "M1", "P", "D2", "N3"], [0, 2, 4, 5, 7, 9, 11],
        "29th Melakarta, very common"⟩ : RagaInfo) := by
    rw [ragaProfile_eq_cast]
    have hq : ragaProfileQ (⟨["S", "R2", "G3", "M1", "P", "D2", "N3"], [0, 2, 4, 5, 7, 9, 11],
        "29th Melakarta, very common"⟩ : RagaInfo) =
        [(1 : ℚ)/7, 0, 1/7, 0, 1/7, 1/7, 0, 1/7, 0, 1/7, 0, 1/7] := by
      norm_num [ragaProfileQ, range_twelve]
    rw [hq]
    norm_num
  exact ⟨hmem, hdis, hprof,
    C7_exact_profile_match_ranks_first _ hmem hdis _ hprof⟩

/-- Claim C8: for every well-formed 12-bin observed distribution,
`match_raga` returns every stored profile exactly once (the name sequence
is a permutation of the store's), sorted descending by score, with ties
broken by store insertion order (stability: two entries with equal scores
appear in the output in store order), and entries with an undefined
(NaN-modelled) correlation only at the lowest ranks.  The embedded
function is total, matching the source, which raises nothing on
well-formed input. -/
theorem C8_matcher_total_ranking (d : List ℝ)
    (hwf : d.length = 12 ∧ (∀ x ∈ d, 0 ≤ x) ∧ d.sum = 1) :
    ((match_raga d).map Prod.fst).Perm (RAGA_PATTERNS.map Prod.fst) ∧
    (match_raga d).Sorted scoreRel ∧
    (∀ x y : String × Option ℝ, x.2 = y.2 →
      ([x, y].Sublist (rawScores d) ↔ [x, y].Sublist (match_raga d))) ∧
    (∀ (i j : ℕ) (hi : i < (match_raga d).length) (hj : j < (match_raga d).length),
      i ≤ j → ((match_raga d).get ⟨i, hi⟩).2 = none →
        ((match_raga d).get ⟨j, hj⟩).2 = none) := by
  refine ⟨?_, List.sorted_insertionSort scoreRel _, ?_, ?_⟩
  · have hperm := (List.perm_insertionSort scoreRel (rawScores d)).map Prod.fst
    have h2 : (rawScores d).map Prod.fst = RAGA_PATTERNS.map Prod.fst := by
      unfold rawScores
      rw [List.map_map]
      exact List.map_congr_left fun _ _ => rfl
    rw [h2] at hperm
    exact hperm
  · intro x y hxy
    letI : DecidableEq (Option ℝ) := Classical.decEq _
    have hfil : (match_raga d).filter (fun z => decide (z.2 = x.2)) =
        (rawScores d).filter (fun z => decide (z.2 = x.2)) := by
      unfold match_raga
      apply filter_insertionSort
      intro a b ha hb
      have ha' : a.2 = x.2 := by simpa using ha
      have hb' : b.2 = x.2 := by simpa using hb
      unfold scoreRel
      rw [ha', hb']
      exact scoreGe_refl _
    have hpx : (fun z : String × Option ℝ => decide (z.2 = x.2)) x = true := by simp
    have hpy : (fun z : String × Option ℝ => decide (z.2 = x.2)) y = true := by simp [hxy.symm]
    have hfxy : [x, y].filter (fun z => decide (z.2 = x.2)) = [x, y] := by
      simp only [List.filter_cons, hpx, hpy, if_pos]
      rfl
    constructor
    · intro h
      have h1 : [x, y].Sublist ((rawScores d).filter (fun z => decide (z.2 = x.2))) := by
        rw [← hfxy]
        exact h.filter _
      rw [← hfil] at h1
      exact h1.trans (List.filter_sublist _)
    · intro h
      have h1 : [x, y].Sublist ((match_raga d).filter (fun z => decide (z.2 = x.2))) := by
        rw [← hfxy]
        exact h.filter _
      rw [hfil] at h1
      exact h1.trans (List.filter_sublist _)
  · intro i j hi hj hij hnone
    rcases eq_or_lt_of_le hij with rfl | hlt
    · exact hnone
    · have hsorted : (match_raga d).Sorted scoreRel := List.sorted_insertionSort scoreRel _
      have hrel := hsorted.rel_get_of_lt
        (show (⟨i, hi⟩ : Fin (match_raga d).length) < ⟨j, hj⟩ from Fin.mk_lt_mk.mpr hlt)
      unfold scoreRel at hrel
      rw [hnone] at hrel
      cases hcase : ((match_raga d).get ⟨j, hj⟩).2 with
      | none => rfl
      | some z =>
        rw [hcase] at hrel
        exact (hrel : False).elim

/-- Witness for C8 at the concrete uniform distribution (the one
well-formed observed vector on which every correlation is undefined). -/
theorem C8_matcher_total_ranking_witness :
    ((List.replicate 12 ((1 : ℝ)/12)).length = 12 ∧
     (∀ x ∈ List.replicate 12 ((1 : ℝ)/12), 0 ≤ x) ∧
     (List.replicate 12 ((1 : ℝ)/12)).sum = 1) ∧
    (((match_raga (List.replicate 12 ((1 : ℝ)/12))).map Prod.fst).Perm
        (RAGA_PATTERNS.map Prod.fst) ∧
     (match_raga (List.replicate 12 ((1 : ℝ)/12))).Sorted scoreRel ∧
     (∀ x y : String × Option ℝ, x.2 = y.2 →
       ([x, y].Sublist (rawScores (List.replicate 12 ((1 : ℝ)/12))) ↔
        [x, y].Sublist (match_raga (List.replicate 12 ((1 : ℝ)/12))))) ∧
     (∀ (i j : ℕ) (hi : i < (match_raga (List.replicate 12 ((1 : ℝ)/12))).length)
        (hj : j < (match_raga (List.replicate 12 ((1 : ℝ)/12))).length),
       i ≤ j → ((match_raga (List.replicate 12 ((1 : ℝ)/12))).get ⟨i, hi⟩).2 = none →
         ((match_raga (List.replicate 12 ((1 : ℝ)/12))).get ⟨j, hj⟩).2 = none)) := by
  have hwf : (List.replicate 12 ((1 : ℝ)/12)).length = 12 ∧
      (∀ x ∈ List.replicate 12 ((1 : ℝ)/12), 0 ≤ x) ∧
      (List.replicate 12 ((1 : ℝ)/12)).sum = 1 := by
    refine ⟨by simp, ?_, ?_⟩
    · intro x hx
      rw [List.eq_of_mem_replicate hx]
      norm_num
    · rw [List.sum_replicate]
      norm_num
  exact ⟨hwf, C8_matcher_total_ranking _ hwf⟩

end RagaDetector
